import Mathlib

/-!
A verification development for the Wikipedia football-stadium ETL pipeline
(`pipelines/wikipedia_pipeline.py`).  Strings are modelled as `List Char`;
the Python string primitives used by the pipeline (`strip`, `replace`,
`find`, `split`, `int(...)`) are embedded below with their exact observable
semantics for the patterns the pipeline uses (all patterns are non-empty).
Exceptions are modelled by `Option` (`none` = the operation raised and the
enclosing stage aborted), and the external geocoding service is a function
parameter `svc` from the query string to an optional location.
-/

/-- Python `str.strip` whitespace test, restricted to the ASCII whitespace
characters (the full Unicode set is not needed by any claim). -/
def isWS (c : Char) : Bool :=
  c = ' ' || c = '\t' || c = '\n' || c = '\r' || c = '\x0b' || c = '\x0c'

/-- Drop trailing whitespace (the right half of Python `str.strip`). -/
def stripEnd (s : List Char) : List Char :=
  (s.reverse.dropWhile isWS).reverse

/-- Python `str.strip()`: drop leading and trailing whitespace. -/
def pyStrip (s : List Char) : List Char :=
  stripEnd (s.dropWhile isWS)

/-- Test `leadsWith pat s`: true when `pat` occurs at the very start of `s`
(Python `s.find(pat) == 0` for non-empty `pat`). -/
def leadsWith : List Char → List Char → Bool
  | [], _ => true
  | _ :: _, [] => false
  | p :: ps, c :: cs => p = c && leadsWith ps cs

/-- Test `occurs pat s`: true when `pat` occurs somewhere in `s`
(Python `s.find(pat) != -1`). -/
def occurs (pat : List Char) : List Char → Bool
  | [] => leadsWith pat []
  | c :: rest => leadsWith pat (c :: rest) || occurs pat rest

/-- Python `s.split(pat)[0]` for non-empty `pat`: the part of `s` before the
first occurrence of `pat` (all of `s` if `pat` does not occur). -/
def splitHead (pat : List Char) : List Char → List Char
  | [] => []
  | c :: rest => if leadsWith pat (c :: rest) then [] else c :: splitHead pat rest

/-- The part of `s` strictly after the first occurrence of `pat`
(`none` when `pat` does not occur in `s`), for non-empty `pat`. -/
def afterFirst (pat : List Char) : List Char → Option (List Char)
  | [] => none
  | c :: rest =>
    if leadsWith pat (c :: rest) then some ((c :: rest).drop pat.length)
    else afterFirst pat rest

/-- Fueled worker for `replaceAll`; with fuel ≥ length of the input and a
non-empty pattern the fuel never runs out, so the zero-fuel arm is inert. -/
def replaceAllAux (pat rep : List Char) : Nat → List Char → List Char
  | _, [] => []
  | 0, s => s
  | fuel + 1, c :: rest =>
    if leadsWith pat (c :: rest) then
      rep ++ replaceAllAux pat rep fuel ((c :: rest).drop pat.length)
    else
      c :: replaceAllAux pat rep fuel rest

/-- Python `s.replace(pat, rep)` for non-empty `pat`: replace every
non-overlapping occurrence, scanning left to right. -/
def replaceAll (pat rep s : List Char) : List Char :=
  replaceAllAux pat rep s.length s

/-- Fueled worker for `pySplit`. -/
def pySplitAux (pat : List Char) : Nat → List Char → List (List Char)
  | _, [] => [[]]
  | 0, s => [s]
  | fuel + 1, c :: rest =>
    if leadsWith pat (c :: rest) then
      [] :: pySplitAux pat fuel ((c :: rest).drop pat.length)
    else
      match pySplitAux pat fuel rest with
      | [] => [[c]]
      | h :: t => (c :: h) :: t

/-- Python `s.split(pat)` for non-empty `pat`: the fields of `s` between the
non-overlapping occurrences of `pat`. -/
def pySplit (pat s : List Char) : List (List Char) :=
  pySplitAux pat s.length s

/-- Value of a non-empty all-digit string (the digit core of Python `int`). -/
def digitsVal (ds : List Char) : Option Nat :=
  if ds ≠ [] ∧ ds.all Char.isDigit then
    some (ds.foldl (fun acc c => acc * 10 + (c.toNat - 48)) 0)
  else none

/-- Python `int(s)` on a string (as used by `astype(int)` on an object
column): surrounding whitespace is ignored, an optional sign is allowed,
then decimal digits; anything else raises (`none`).  Underscore digit
separators, accepted by CPython, are not modelled — no pipeline value or
claim involves them. -/
def pyToInt (s : List Char) : Option Int :=
  match pyStrip s with
  | '-' :: ds => (digitsVal ds).map (fun n => -(n : Int))
  | '+' :: ds => (digitsVal ds).map (fun n => (n : Int))
  | ds => (digitsVal ds).map (fun n => (n : Int))

/-- Line 78–79 of `clean_text`: `if text.find(' ♦'): text = text.split(' ♦')[0]`.
Python `find` returns `0` — which is *falsy* — exactly when the text starts
with `' ♦'`, so the split is skipped in precisely that case and applied in
every other case (where it is a no-op if `' ♦'` is absent). -/
def cleanDiamond (t : List Char) : List Char :=
  if leadsWith " ♦".data t then t else splitHead " ♦".data t

/-- Lines 80–81: `if text.find('[') != -1: text = text.split('[')[0]`. -/
def cleanBracket (t : List Char) : List Char :=
  if occurs "[".data t then splitHead "[".data t else t

/-- Lines 82–83: truncate at `' (formerly)'` when present. -/
def cleanFormerly (t : List Char) : List Char :=
  if occurs " (formerly)".data t then splitHead " (formerly)".data t else t

/-- The function `clean_text` (wikipedia_pipeline.py lines 58–85): `strip`, remove
`'&nbsp'`, the guarded split at `' ♦'`, the split at `'['` when present,
the split at `' (formerly)'` when present, then remove newline characters. -/
def clean_text (text : List Char) : List Char :=
  replaceAll "\n".data []
    (cleanFormerly (cleanBracket (cleanDiamond (replaceAll "&nbsp".data [] (pyStrip text)))))

/-- Modelled from the spec (§4.3), for comparison with `clean_text`: rule 3
exactly as the spec words it — "truncate everything from a ' ♦' marker
onward, if present" — with no truthiness guard. -/
def cleanDiamondSpec (t : List Char) : List Char :=
  if occurs " ♦".data t then splitHead " ♦".data t else t

/-- Modelled from the spec (§4.3), for comparison with `clean_text`: the
same six rules in the same order, but with the spec's unguarded rule 3. -/
def clean_text_spec (text : List Char) : List Char :=
  replaceAll "\n".data []
    (cleanFormerly (cleanBracket (cleanDiamondSpec (replaceAll "&nbsp".data [] (pyStrip text)))))

/-- The `src` attribute of an embedded `img` element (`none` models an
`img` tag with no `src` attribute, for which `.get("src")` yields Python
`None` and the subsequent `.split` raises). -/
structure Img where
  src : Option (List Char)
deriving DecidableEq

/-- One `td` cell of a table row: its text content, and its first embedded
`img` element if any (`tds[5].find("img")`). -/
structure Cell where
  text : List Char
  img : Option Img
deriving DecidableEq

/-- The record built by the extract stage for one data row
(wikipedia_pipeline.py lines 114–123); `capacity` is still the cleaned,
separator-stripped string at this point, and `images` is modelled as an
optional string because the transform stage's fallback also handles an
absent value. -/
structure ERow where
  rank : Nat
  stadium : List Char
  capacity : List Char
  region : List Char
  country : List Char
  city : List Char
  images : Option (List Char)
  home_team : List Char
deriving DecidableEq

/-- The `images` expression of line 121: when the cell has an `img`
element, `'https://' + src.split("//")[1]`; when it has none, the sentinel
`"NO_IMAGE"`.  `none` models a raised exception (missing `src` attribute,
or no `"//"` in the `src` so that index `[1]` is out of range). -/
def extractImages (c : Cell) : Option (List Char) :=
  match c.img with
  | none => some "NO_IMAGE".data
  | some im =>
    match im.src with
    | none => none
    | some s =>
      match (pySplit "//".data s)[1]? with
      | none => none
      | some seg => some ("https://".data ++ seg)

/-- Build the extract record for one data row (the `values` dict of lines
114–123) with 1-based rank `i`; any row with fewer than 7 cells raises
(`none`), as does a failing image expression. -/
def mapRow (i : Nat) (tds : List Cell) : Option ERow :=
  match tds with
  | t0 :: t1 :: t2 :: t3 :: t4 :: t5 :: t6 :: _ =>
    (extractImages t5).map (fun img =>
      { rank := i
        stadium := clean_text t0.text
        capacity := replaceAll ".".data [] (replaceAll ",".data [] (clean_text t1.text))
        region := clean_text t2.text
        country := clean_text t3.text
        city := clean_text t4.text
        images := some img
        home_team := clean_text t6.text })
  | _ => none

/-- The extract loop `for i in range(1, len(rows))` starting at rank `i`:
one record per row, aborting the whole batch on the first raising row. -/
def extractRows : Nat → List (List Cell) → Option (List ERow)
  | _, [] => some []
  | i, r :: rest =>
    match mapRow i r, extractRows (i + 1) rest with
    | some v, some vs => some (v :: vs)
    | _, _ => none

/-- The task `extract_wikipedia_data` (lines 87–130) from the fetched table rows
(header at index 0).  The first component is what is pushed to the XCom
result store under key `rows` (`none` = nothing pushed); the second is the
function's return value (`some "OK"` on success, `none` = Python `None`
after the exception is caught and logged). -/
def extract_wikipedia_data (rows : List (List Cell)) : Option (List ERow) × Option String :=
  match extractRows 1 (rows.drop 1) with
  | some data => (some data, some "OK")
  | none => (none, none)

/-- A location resolved by the external geocoding service; the coordinate
type is abstract (`α`) since the pipeline only ever moves and compares
coordinates. -/
structure GeoLoc (α : Type) where
  latitude : α
  longitude : α
deriving DecidableEq

/-- The geocoder `get_lat_long` (lines 132–154): query the external service `svc` with
the f-string `f'{city}, {country}'`; on a hit return the
(latitude, longitude) pair, otherwise `None`. -/
def get_lat_long {α : Type} (svc : List Char → Option (GeoLoc α)) (country city : List Char) :
    Option (α × α) :=
  match svc (city ++ ", ".data ++ country) with
  | some loc => some (loc.latitude, loc.longitude)
  | none => none

/-- The module constant `NO_IMAGE` (line 10): the placeholder image URL. -/
def NO_IMAGE : List Char :=
  "https://upload.wikimedia.org/wikipedia/commons/thumb/0/0a/No-image-available.png/480px-No-image-available.png".data

/-- The image-fallback lambda of line 178:
`x if x not in ['NO_IMAGE', '', None] else NO_IMAGE`. -/
def imagesLambda (x : Option (List Char)) : Option (List Char) :=
  if x ∈ ([some "NO_IMAGE".data, some [], none] : List (Option (List Char))) then
    some NO_IMAGE
  else x

/-- A record after the transform stage's column assignments (lines
177–179): `capacity` is now an integer and `location` an optional
coordinate pair. -/
structure TRow (α : Type) where
  rank : Nat
  stadium : List Char
  capacity : Int
  region : List Char
  country : List Char
  city : List Char
  images : Option (List Char)
  home_team : List Char
  location : Option (α × α)
deriving DecidableEq

/-- The three row-wise column assignments of lines 177–179 fused into one
record builder: attach `location` from the primary `(country, stadium)`
geocode, apply the image fallback, and coerce `capacity` with `int`
(`none` = `astype(int)` raised). -/
def stagedRow {α : Type} (svc : List Char → Option (GeoLoc α)) (r : ERow) : Option (TRow α) :=
  (pyToInt r.capacity).map (fun cap =>
    { rank := r.rank
      stadium := r.stadium
      capacity := cap
      region := r.region
      country := r.country
      city := r.city
      images := imagesLambda r.images
      home_team := r.home_team
      location := get_lat_long svc r.country r.stadium })

/-- Apply `f` to every row, aborting with `none` if any row raises —
the failure behaviour of a pandas column operation such as `astype(int)`. -/
def mapMRows {α : Type} (f : ERow → Option (TRow α)) : List ERow → Option (List (TRow α))
  | [] => some []
  | r :: rest =>
    match f r, mapMRows f rest with
    | some t, some ts => some (t :: ts)
    | _, _ => none

/-- The `DataFrame.update` effect on one duplicate row (lines 182–183):
re-geocode with `(country, city)` and overwrite `location` only when the
re-geocode produced a value — `update` skips missing values, so a `None`
result leaves the previous location in place. -/
def updateLoc {α : Type} (svc : List Char → Option (GeoLoc α)) (r : TRow α) : TRow α :=
  match get_lat_long svc r.country r.city with
  | some v => { r with location := some v }
  | none => r

/-- The duplicate-resolution pass (lines 181–183): `seen` holds the
`location` values of all earlier rows (pandas `duplicated(['location'])`
with the default keep-first policy, under which missing values also compare
equal); a row whose location was already seen is re-geocoded via
`updateLoc`, every other row passes through unchanged. -/
def resolveDupsAux {α : Type} [DecidableEq α] (svc : List Char → Option (GeoLoc α)) :
    List (Option (α × α)) → List (TRow α) → List (TRow α)
  | _, [] => []
  | seen, r :: rest =>
    (if r.location ∈ seen then updateLoc svc r else r) ::
      resolveDupsAux svc (r.location :: seen) rest

/-- The duplicate-resolution pass over a whole record set. -/
def resolveDups {α : Type} [DecidableEq α] (svc : List Char → Option (GeoLoc α))
    (rows : List (TRow α)) : List (TRow α) :=
  resolveDupsAux svc [] rows

/-- The task `transform_wikipedia_data` (lines 156–186) on the record set pulled
from the extract stage: the row-wise column assignments of lines 177–179
followed by the duplicate-resolution pass of lines 181–183.  `none` models
an uncaught exception (the transform has no try/except), in which case
nothing is pushed and the task fails. -/
def transform_wikipedia_data {α : Type} [DecidableEq α]
    (svc : List Char → Option (GeoLoc α)) (data : List ERow) : Option (List (TRow α)) :=
  (mapMRows (stagedRow svc) data).map (fun rows => resolveDups svc rows)

/-! ### Lemmas about the embedded string primitives -/

lemma leadsWith_append (pat t u : List Char) (h : leadsWith pat t = true) :
    leadsWith pat (t ++ u) = true := by
  induction pat generalizing t with
  | nil => rfl
  | cons p ps ih =>
    cases t with
    | nil => simp [leadsWith] at h
    | cons c cs =>
      simp only [leadsWith, Bool.and_eq_true] at h
      simp only [List.cons_append, leadsWith, Bool.and_eq_true]
      exact ⟨h.1, ih cs h.2⟩

lemma occurs_cons (pat : List Char) (c : Char) (rest : List Char)
    (h : occurs pat rest = true) : occurs pat (c :: rest) = true := by
  simp only [occurs, Bool.or_eq_true]
  exact Or.inr h

lemma leadsWith_occurs (pat s : List Char) (h : leadsWith pat s = true) :
    occurs pat s = true := by
  cases s with
  | nil => simpa [occurs] using h
  | cons c rest => simp only [occurs, Bool.or_eq_true]; exact Or.inl h

lemma occurs_append_right (pat r u : List Char) (h : occurs pat r = true) :
    occurs pat (r ++ u) = true := by
  induction r with
  | nil =>
    simp only [occurs] at h
    cases u with
    | nil => simpa [occurs] using h
    | cons c cs => exact leadsWith_occurs _ _ (leadsWith_append pat [] (c :: cs) h)
  | cons c r ih =>
    simp only [occurs, Bool.or_eq_true] at h
    rcases h with h | h
    · exact leadsWith_occurs _ _ (leadsWith_append pat (c :: r) u h)
    · exact occurs_cons _ _ _ (ih h)

lemma occurs_append_left (pat w t : List Char) (h : occurs pat t = true) :
    occurs pat (w ++ t) = true := by
  induction w with
  | nil => simpa using h
  | cons c w ih => exact occurs_cons _ _ _ ih

lemma stripEnd_append_eq (t : List Char) :
    stripEnd t ++ (t.reverse.takeWhile isWS).reverse = t := by
  unfold stripEnd
  rw [← List.reverse_append, List.takeWhile_append_dropWhile, List.reverse_reverse]

lemma occurs_of_occurs_stripEnd (pat t : List Char)
    (h : occurs pat (stripEnd t) = true) : occurs pat t = true := by
  rw [← stripEnd_append_eq t]
  exact occurs_append_right _ _ _ h

lemma occurs_of_occurs_pyStrip (pat s : List Char)
    (h : occurs pat (pyStrip s) = true) : occurs pat s = true := by
  unfold pyStrip at h
  have h1 : occurs pat (s.dropWhile isWS) = true := occurs_of_occurs_stripEnd _ _ h
  rw [← List.takeWhile_append_dropWhile isWS s]
  exact occurs_append_left _ _ _ h1

lemma occurs_pyStrip_false (pat s : List Char) (h : occurs pat s = false) :
    occurs pat (pyStrip s) = false := by
  cases hq : occurs pat (pyStrip s)
  · rfl
  · have h2 := occurs_of_occurs_pyStrip _ _ hq
    simp [h] at h2

lemma replaceAllAux_eq_self (pat rep : List Char) :
    ∀ (s : List Char) (fuel : Nat), occurs pat s = false →
      replaceAllAux pat rep fuel s = s := by
  intro s
  induction s with
  | nil => intro fuel _; cases fuel <;> rfl
  | cons c rest ih =>
    intro fuel h
    simp only [occurs, Bool.or_eq_false_iff] at h
    cases fuel with
    | zero => rfl
    | succ f => simp [replaceAllAux, h.1, ih f h.2]

lemma replaceAll_eq_self (pat rep s : List Char) (h : occurs pat s = false) :
    replaceAll pat rep s = s :=
  replaceAllAux_eq_self pat rep s s.length h

lemma splitHead_eq_self (pat s : List Char) (h : occurs pat s = false) :
    splitHead pat s = s := by
  induction s with
  | nil => rfl
  | cons c rest ih =>
    simp only [occurs, Bool.or_eq_false_iff] at h
    simp [splitHead, h.1, ih h.2]

lemma dropWhile_dropWhile_self {α : Type} (p : α → Bool) (l : List α) :
    (l.dropWhile p).dropWhile p = l.dropWhile p := by
  induction l with
  | nil => rfl
  | cons c l ih =>
    by_cases h : p c
    · simp [List.dropWhile_cons, h, ih]
    · simp [List.dropWhile_cons, h]

lemma stripEnd_stripEnd (t : List Char) : stripEnd (stripEnd t) = stripEnd t := by
  unfold stripEnd
  rw [List.reverse_reverse, dropWhile_dropWhile_self]

lemma dropWhile_stripEnd {p : Char → Bool} (t : List Char)
    (h : t.dropWhile p = t) : (stripEnd t).dropWhile p = stripEnd t := by
  obtain ⟨w, hw⟩ : ∃ w, t = stripEnd t ++ w := ⟨_, (stripEnd_append_eq t).symm⟩
  cases hs : stripEnd t with
  | nil => rfl
  | cons c r =>
    rw [hs] at hw
    have hpc : p c = false := by
      by_contra hx
      rw [Bool.not_eq_false] at hx
      rw [hw, List.cons_append, List.dropWhile_cons, if_pos hx] at h
      have hlen := congrArg List.length h
      have hle := (List.dropWhile_sublist (l := r ++ w) p).length_le
      simp only [List.length_cons] at hlen
      omega
    rw [List.dropWhile_cons, if_neg (by simp [hpc])]

lemma pyStrip_pyStrip (s : List Char) : pyStrip (pyStrip s) = pyStrip s := by
  unfold pyStrip
  rw [dropWhile_stripEnd _ (dropWhile_dropWhile_self isWS s), stripEnd_stripEnd]

lemma cleanDiamond_eq_self (t : List Char) (h : occurs " ♦".data t = false) :
    cleanDiamond t = t := by
  have hl : leadsWith " ♦".data t = false := by
    cases hq : leadsWith " ♦".data t
    · rfl
    · have h2 := leadsWith_occurs _ _ hq
      simp [h] at h2
  simp [cleanDiamond, hl, splitHead_eq_self _ _ h]

lemma cleanBracket_eq_self (t : List Char) (h : occurs "[".data t = false) :
    cleanBracket t = t := by
  simp [cleanBracket, h]

lemma cleanFormerly_eq_self (t : List Char) (h : occurs " (formerly)".data t = false) :
    cleanFormerly t = t := by
  simp [cleanFormerly, h]

/-- On input free of every marker the cleaner reduces to a plain strip. -/
lemma clean_text_eq_pyStrip (s : List Char)
    (h1 : occurs "&nbsp".data s = false) (h2 : occurs " ♦".data s = false)
    (h3 : occurs "[".data s = false) (h4 : occurs " (formerly)".data s = false)
    (h5 : occurs "\n".data s = false) :
    clean_text s = pyStrip s := by
  unfold clean_text
  rw [replaceAll_eq_self _ _ _ (occurs_pyStrip_false _ _ h1),
    cleanDiamond_eq_self _ (occurs_pyStrip_false _ _ h2),
    cleanBracket_eq_self _ (occurs_pyStrip_false _ _ h3),
    cleanFormerly_eq_self _ (occurs_pyStrip_false _ _ h4),
    replaceAll_eq_self _ _ _ (occurs_pyStrip_false _ _ h5)]

/-- Claim C2 (amended): `clean_text` is idempotent on every input that
contains no newline and no occurrence of any of the markers `'&nbsp'`,
`' ♦'`, `'['`, `' (formerly)'`.  (Full idempotence over all strings fails,
see the counterexample theorem: removing `'&nbsp'` can expose surrounding
whitespace that only a second pass strips.) -/
theorem clean_text_idempotent_marker_free (s : List Char)
    (h1 : occurs "&nbsp".data s = false) (h2 : occurs " ♦".data s = false)
    (h3 : occurs "[".data s = false) (h4 : occurs " (formerly)".data s = false)
    (h5 : occurs "\n".data s = false) :
    clean_text (clean_text s) = clean_text s := by
  rw [clean_text_eq_pyStrip s h1 h2 h3 h4 h5,
    clean_text_eq_pyStrip _ (occurs_pyStrip_false _ _ h1) (occurs_pyStrip_false _ _ h2)
      (occurs_pyStrip_false _ _ h3) (occurs_pyStrip_false _ _ h4)
      (occurs_pyStrip_false _ _ h5),
    pyStrip_pyStrip]

/-- Witness for the amended C2 at the concrete marker-free input
`"Camp Nou"`. -/
theorem clean_text_idempotent_marker_free_witness :
    clean_text (clean_text "Camp Nou".data) = clean_text "Camp Nou".data :=
  clean_text_idempotent_marker_free "Camp Nou".data (by decide) (by decide) (by decide)
    (by decide) (by decide)

/-- Claim C2 counterexample: the Field Cleaner is not idempotent as claimed.
On `"a &nbsp"` one application yields `"a "` (the `'&nbsp'` removal exposes
a trailing space that was already past the initial strip), and a second
application strips it further to `"a"`. -/
theorem clean_text_not_idempotent :
    clean_text "a &nbsp".data = "a ".data
    ∧ clean_text (clean_text "a &nbsp".data) = "a".data
    ∧ clean_text (clean_text "a &nbsp".data) ≠ clean_text "a &nbsp".data := by
  decide

/-- Claim C3: the documented example holds — `clean_text` maps
`"Stadium ♦[3] (formerly)"` to `"Stadium"` — but the universally claimed
rule list does not: because the source guards the `' ♦'` truncation with
the truthiness of `str.find`, an input whose text starts with `' ♦'` after
`'&nbsp'` removal (e.g. `"&nbsp ♦x"`) skips that truncation and returns
`" ♦x"`, where the spec's rules (embodied by `clean_text_spec`) return the
empty string. -/
theorem clean_text_diamond_guard_divergence :
    clean_text "Stadium ♦[3] (formerly)".data = "Stadium".data
    ∧ clean_text "&nbsp ♦x".data = " ♦x".data
    ∧ clean_text_spec "&nbsp ♦x".data = []
    ∧ clean_text "&nbsp ♦x".data ≠ clean_text_spec "&nbsp ♦x".data := by
  decide

lemma pySplitAux_ne_nil (pat : List Char) (fuel : Nat) (s : List Char) :
    pySplitAux pat fuel s ≠ [] := by
  cases s with
  | nil => cases fuel <;> simp [pySplitAux]
  | cons c rest =>
    cases fuel with
    | zero => simp [pySplitAux]
    | succ f =>
      simp only [pySplitAux]
      split
      · simp
      · split <;> simp

lemma pySplitAux_head (pat : List Char) :
    ∀ (fuel : Nat) (s : List Char), s.length ≤ fuel →
      (pySplitAux pat fuel s)[0]? = some (splitHead pat s) := by
  intro fuel
  induction fuel with
  | zero =>
    intro s h
    have hs : s = [] := List.length_eq_zero.mp (Nat.le_zero.mp h)
    subst hs
    rfl
  | succ f ih =>
    intro s h
    cases s with
    | nil => rfl
    | cons c rest =>
      have hr : rest.length ≤ f := by
        simp only [List.length_cons] at h
        omega
      cases hq : leadsWith pat (c :: rest) with
      | true => simp [pySplitAux, splitHead, hq]
      | false =>
        have hne := pySplitAux_ne_nil pat f rest
        simp only [pySplitAux, hq, Bool.false_eq_true, if_false]
        cases hrec : pySplitAux pat f rest with
        | nil => exact absurd hrec hne
        | cons hd tl =>
          have ih0 := ih rest hr
          rw [hrec] at ih0
          simp only [List.getElem?_cons_zero, Option.some.injEq] at ih0
          simp [splitHead, hq, ih0]

lemma pySplitAux_second (pat : List Char) (hp : pat ≠ []) :
    ∀ (fuel : Nat) (s r : List Char), s.length ≤ fuel →
      afterFirst pat s = some r →
      (pySplitAux pat fuel s)[1]? = some (splitHead pat r) := by
  intro fuel
  induction fuel with
  | zero =>
    intro s r h ha
    have hs : s = [] := List.length_eq_zero.mp (Nat.le_zero.mp h)
    subst hs
    simp [afterFirst] at ha
  | succ f ih =>
    intro s r h ha
    cases s with
    | nil => simp [afterFirst] at ha
    | cons c rest =>
      have hplen : 1 ≤ pat.length := by
        cases pat with
        | nil => exact absurd rfl hp
        | cons p ps => simp
      have hlen : rest.length + 1 ≤ f + 1 := by simpa using h
      cases hq : leadsWith pat (c :: rest) with
      | true =>
        simp only [afterFirst, hq, if_true] at ha
        have hr : r = (c :: rest).drop pat.length := (Option.some.injEq _ _).mp ha |>.symm
        have hd : ((c :: rest).drop pat.length).length ≤ f := by
          rw [List.length_drop]
          simp only [List.length_cons]
          omega
        simp only [pySplitAux, hq, if_true, List.getElem?_cons_succ]
        rw [pySplitAux_head pat f _ hd, hr]
      | false =>
        simp only [afterFirst, hq, Bool.false_eq_true, if_false] at ha
        have hne := pySplitAux_ne_nil pat f rest
        simp only [pySplitAux, hq, Bool.false_eq_true, if_false]
        cases hrec : pySplitAux pat f rest with
        | nil => exact absurd hrec hne
        | cons hd tl =>
          have ih1 := ih rest r (by omega) ha
          rw [hrec] at ih1
          simpa using ih1

lemma pySplit_second (pat s r : List Char) (hp : pat ≠ [])
    (h : afterFirst pat s = some r) :
    (pySplit pat s)[1]? = some (splitHead pat r) :=
  pySplitAux_second pat hp s.length s r le_rfl h

/-- Claim C4 (amended): for a cell with an embedded image element whose
`src` contains `"//"` (with remainder `r` after the first `"//"`), the
extracted value is `"https://"` followed by the part of `r` before the
*next* `"//"` — the second field of `src.split("//")`, not the entire
remainder; for a cell with no image element, the extracted value is the
sentinel `"NO_IMAGE"`. -/
theorem extract_images_characterization (c : Cell) :
    (∀ im s r, c.img = some im → im.src = some s →
       afterFirst "//".data s = some r →
       extractImages c = some ("https://".data ++ splitHead "//".data r))
    ∧ (c.img = none → extractImages c = some "NO_IMAGE".data) := by
  constructor
  · intro im s r him hsrc ha
    have h2 := pySplit_second "//".data s r (by decide) ha
    simp [extractImages, him, hsrc, h2]
  · intro h
    simp [extractImages, h]

/-- Witness for the amended C4 at a realistic one-`"//"` src and at a
no-image cell. -/
theorem extract_images_characterization_witness :
    extractImages ⟨[], some ⟨some "//up.wiki/x.png".data⟩⟩
      = some ("https://".data ++ splitHead "//".data "up.wiki/x.png".data) :=
  (extract_images_characterization ⟨[], some ⟨some "//up.wiki/x.png".data⟩⟩).1
    ⟨some "//up.wiki/x.png".data⟩ "//up.wiki/x.png".data "up.wiki/x.png".data
    rfl rfl (by decide)

/-- Helper: a plain text cell with no embedded image element. -/
def mkCell (s : String) : Cell := ⟨s.data, none⟩

/-- A data row (7 cells) whose image cell's `src` contains a second
`"//"`. -/
def rowDoubleSlash : List Cell :=
  [mkCell "A", mkCell "1", mkCell "R", mkCell "X", mkCell "C",
   ⟨[], some ⟨some "//a//b".data⟩⟩, mkCell "H"]

/-- Claim C4 counterexample: the claim says the extracted `images` value is
`"https://"` plus the *entire* remainder of `src` after its first `"//"`.
For `src = "//a//b"` the code extracts `"https://a"` (the split truncates
at the second `"//"`), while the claimed value is `"https://a//b"`. -/
theorem extract_images_remainder_counterexample :
    ((extract_wikipedia_data [[], rowDoubleSlash]).1).map (List.map (fun r => r.images))
      = some [some "https://a".data]
    ∧ "https://".data ++ ((afterFirst "//".data "//a//b".data).getD [])
      = "https://a//b".data
    ∧ some "https://a".data ≠ some "https://a//b".data := by
  decide

lemma mapRow_eq_none_of_short (i : Nat) (tds : List Cell) (h : tds.length < 7) :
    mapRow i tds = none := by
  rcases tds with _ | ⟨t0, _ | ⟨t1, _ | ⟨t2, _ | ⟨t3, _ | ⟨t4, _ | ⟨t5, _ | ⟨t6, rest⟩⟩⟩⟩⟩⟩⟩ <;>
    first
      | rfl
      | (exfalso; simp only [List.length_cons] at h; omega)

lemma extractRows_eq_none_of_mem_short :
    ∀ (rs : List (List Cell)) (j : Nat) (tds : List Cell),
      tds ∈ rs → tds.length < 7 → extractRows j rs = none := by
  intro rs
  induction rs with
  | nil =>
    intro j tds h
    simp at h
  | cons r rest ih =>
    intro j tds hmem hlen
    rcases List.mem_cons.mp hmem with rfl | hmem2
    · unfold extractRows
      rw [mapRow_eq_none_of_short j tds hlen]
    · unfold extractRows
      rw [ih (j + 1) tds hmem2 hlen]
      cases mapRow j r <;> rfl

/-- Claim C5: the extract stage is all-or-nothing on malformed rows — if
any data row (index ≥ 1, the header being row 0) has fewer than 7 cells,
`extract_wikipedia_data` pushes nothing to the result store (first
component `none`) and does not return `"OK"` (second component `none`,
the caught exception being only logged). -/
theorem extract_all_or_nothing (rows : List (List Cell)) (i : Nat) (tds : List Cell)
    (h1 : 1 ≤ i) (h2 : rows[i]? = some tds) (h3 : tds.length < 7) :
    extract_wikipedia_data rows = (none, none) := by
  have hmem : tds ∈ rows.drop 1 := by
    have hg : (rows.drop 1)[i - 1]? = some tds := by
      rw [List.getElem?_drop]
      have he : 1 + (i - 1) = i := by omega
      rw [he, h2]
    exact List.getElem?_mem hg
  unfold extract_wikipedia_data
  rw [extractRows_eq_none_of_mem_short (rows.drop 1) 1 tds hmem h3]

/-- Witness for C5: a table with a header and one 2-cell data row fails the
whole batch. -/
theorem extract_all_or_nothing_witness :
    extract_wikipedia_data [[], [mkCell "A", mkCell "1"]] = (none, none) :=
  extract_all_or_nothing [[], [mkCell "A", mkCell "1"]] 1 [mkCell "A", mkCell "1"]
    (by decide) rfl (by decide)

lemma mapRow_rank (i : Nat) (tds : List Cell) (v : ERow) (h : mapRow i tds = some v) :
    v.rank = i := by
  rcases tds with _ | ⟨t0, _ | ⟨t1, _ | ⟨t2, _ | ⟨t3, _ | ⟨t4, _ | ⟨t5, _ | ⟨t6, rest⟩⟩⟩⟩⟩⟩⟩
  all_goals try exact Option.noConfusion h
  simp only [mapRow] at h
  obtain ⟨img, _, hv⟩ := Option.map_eq_some'.mp h
  rw [← hv]

lemma extractRows_ranks :
    ∀ (rs : List (List Cell)) (j : Nat) (out : List ERow),
      extractRows j rs = some out →
      out.map (fun r => r.rank) = List.range' j rs.length ∧ out.length = rs.length := by
  intro rs
  induction rs with
  | nil =>
    intro j out h
    simp only [extractRows, Option.some.injEq] at h
    subst h
    simp [List.range']
  | cons r rest ih =>
    intro j out h
    unfold extractRows at h
    cases hm : mapRow j r with
    | none => rw [hm] at h; cases hrec : extractRows (j + 1) rest <;> rw [hrec] at h <;> cases h
    | some v =>
      rw [hm] at h
      cases hrec : extractRows (j + 1) rest with
      | none => rw [hrec] at h; cases h
      | some vs =>
        rw [hrec] at h
        simp only [Option.some.injEq] at h
        subst h
        obtain ⟨hmap, hlen⟩ := ih (j + 1) vs hrec
        refine ⟨?_, by simp [hlen]⟩
        simp only [List.map_cons, List.length_cons, List.range'_succ, mapRow_rank j r v hm,
          hmap]

/-- Claim C8: whenever the extract stage succeeds on a table of
`rows.length` rows (header at index 0), it produces exactly
`rows.length - 1` records whose rank values are precisely
`1, 2, ..., rows.length - 1` in row order — strictly increasing and without
duplicates — with the header row contributing no record. -/
theorem extract_ranks (rows : List (List Cell)) (data : List ERow)
    (h : (extract_wikipedia_data rows).1 = some data) :
    data.length = rows.length - 1
    ∧ data.map (fun r => r.rank) = List.range' 1 (rows.length - 1)
    ∧ (data.map (fun r => r.rank)).Pairwise (fun a b => a < b)
    ∧ (data.map (fun r => r.rank)).Nodup := by
  unfold extract_wikipedia_data at h
  cases hrec : extractRows 1 (rows.drop 1) with
  | none => rw [hrec] at h; cases h
  | some d =>
    rw [hrec] at h
    simp only [Option.some.injEq] at h
    subst h
    obtain ⟨hmap, hlen⟩ := extractRows_ranks (rows.drop 1) 1 d hrec
    have hdl : (rows.drop 1).length = rows.length - 1 := by simp
    rw [hdl] at hmap hlen
    have hpw : (List.range' 1 (rows.length - 1)).Pairwise (fun a b => a < b) := by
      have : ∀ (n s : Nat), (List.range' s n).Pairwise (fun a b => a < b) := by
        intro n
        induction n with
        | zero => intro s; simp [List.range']
        | succ m ihm =>
          intro s
          rw [List.range'_succ]
          refine List.pairwise_cons.mpr ⟨?_, ihm (s + 1)⟩
          intro b hb
          have := (List.mem_range'_1.mp hb).1
          omega
      exact this _ _
    refine ⟨hlen, hmap, by rw [hmap]; exact hpw, ?_⟩
    rw [hmap]
    exact List.Pairwise.imp (fun hab => Nat.ne_of_lt hab) hpw

/-- A well-formed 7-cell data row used by several witnesses. -/
def rowA : List Cell :=
  [mkCell "A", mkCell "90,000", mkCell "R", mkCell "X", mkCell "C", mkCell "", mkCell "H"]

/-- A second well-formed 7-cell data row. -/
def rowB : List Cell :=
  [mkCell "B", mkCell "1.234", mkCell "R", mkCell "X", mkCell "D", mkCell "", mkCell "H"]

/-- Witness for C8 on a header plus two data rows. -/
theorem extract_ranks_witness :
    ∃ data, (extract_wikipedia_data [[], rowA, rowB]).1 = some data
      ∧ data.length = 2
      ∧ data.map (fun r => r.rank) = [1, 2] := by
  cases hd : (extract_wikipedia_data [[], rowA, rowB]).1 with
  | none => exact absurd hd (by decide)
  | some data =>
    obtain ⟨h1, h2, _, _⟩ := extract_ranks [[], rowA, rowB] data hd
    exact ⟨data, rfl, h1, h2⟩

lemma mapMRows_getElem {α : Type} (f : ERow → Option (TRow α)) :
    ∀ (l : List ERow) (out : List (TRow α)), mapMRows f l = some out →
      out.length = l.length ∧ ∀ i : Nat, out[i]? = (l[i]?).bind f := by
  intro l
  induction l with
  | nil =>
    intro out h
    simp only [mapMRows, Option.some.injEq] at h
    subst h
    exact ⟨rfl, fun i => rfl⟩
  | cons r rest ih =>
    intro out h
    unfold mapMRows at h
    cases hf : f r with
    | none =>
      rw [hf] at h
      cases mapMRows f rest <;> cases h
    | some t =>
      rw [hf] at h
      cases hrec : mapMRows f rest with
      | none => rw [hrec] at h; cases h
      | some ts =>
        rw [hrec] at h
        simp only [Option.some.injEq] at h
        subst h
        obtain ⟨hl, hg⟩ := ih ts hrec
        refine ⟨by simp [hl], ?_⟩
        intro i
        cases i with
        | zero => simp [hf]
        | succ n => simp [hg n]

lemma mapMRows_isSome {α : Type} (f : ERow → Option (TRow α)) :
    ∀ l : List ERow, (∀ r ∈ l, (f r).isSome = true) → (mapMRows f l).isSome = true := by
  intro l
  induction l with
  | nil => intro _; rfl
  | cons r rest ih =>
    intro h
    have h1 : (f r).isSome = true := h r (List.mem_cons_self r rest)
    have h2 := ih (fun x hx => h x (List.mem_cons_of_mem r hx))
    unfold mapMRows
    cases hf : f r with
    | none => rw [hf] at h1; simp at h1
    | some t =>
      cases hrec : mapMRows f rest with
      | none => rw [hrec] at h2; simp at h2
      | some ts => rfl

lemma resolveDupsAux_length {α : Type} [DecidableEq α] (svc : List Char → Option (GeoLoc α)) :
    ∀ (rs : List (TRow α)) (seen : List (Option (α × α))),
      (resolveDupsAux svc seen rs).length = rs.length := by
  intro rs
  induction rs with
  | nil => intro seen; rfl
  | cons r rest ih => intro seen; simp [resolveDupsAux, ih]

/-- Index-wise characterization of the duplicate-resolution pass: row `i`
is re-geocoded exactly when its location appears in `seen` or among the
locations of the rows before it, and is otherwise untouched. -/
lemma resolveDupsAux_getElem {α : Type} [DecidableEq α] (svc : List Char → Option (GeoLoc α)) :
    ∀ (rs : List (TRow α)) (seen : List (Option (α × α))) (i : Nat),
      (resolveDupsAux svc seen rs)[i]? = (rs[i]?).map (fun r =>
        if r.location ∈ seen ∨ r.location ∈ (rs.take i).map (fun t => t.location)
        then updateLoc svc r else r) := by
  intro rs
  induction rs with
  | nil => intro seen i; rfl
  | cons r rest ih =>
    intro seen i
    cases i with
    | zero =>
      simp only [resolveDupsAux, List.getElem?_cons_zero, List.take_zero, List.map_nil,
        Option.map_some']
      exact congrArg _ (if_congr (by simp) rfl rfl)
    | succ n =>
      simp only [resolveDupsAux, List.getElem?_cons_succ, List.take_succ_cons, List.map_cons]
      rw [ih (r.location :: seen) n]
      cases hr : rest[n]? with
      | none => rfl
      | some x =>
        simp only [Option.map_some']
        exact congrArg _ (if_congr (by simp only [List.mem_cons]; tauto) rfl rfl)

lemma resolveDups_getElem {α : Type} [DecidableEq α] (svc : List Char → Option (GeoLoc α))
    (rs : List (TRow α)) (i : Nat) :
    (resolveDups svc rs)[i]? = (rs[i]?).map (fun r =>
      if r.location ∈ (rs.take i).map (fun t => t.location) then updateLoc svc r else r) := by
  unfold resolveDups
  rw [resolveDupsAux_getElem]
  cases rs[i]? with
  | none => rfl
  | some x =>
    simp only [Option.map_some']
    exact congrArg _ (if_congr (by simp) rfl rfl)

lemma updateLoc_of_some {α : Type} (svc : List Char → Option (GeoLoc α)) (r : TRow α)
    (v : α × α) (h : get_lat_long svc r.country r.city = some v) :
    updateLoc svc r = { r with location := some v } := by
  unfold updateLoc
  rw [h]

lemma updateLoc_of_none {α : Type} (svc : List Char → Option (GeoLoc α)) (r : TRow α)
    (h : get_lat_long svc r.country r.city = none) :
    updateLoc svc r = r := by
  unfold updateLoc
  rw [h]

lemma stagedRow_fields {α : Type} (svc : List Char → Option (GeoLoc α)) (r : ERow)
    (t : TRow α) (h : stagedRow svc r = some t) :
    t.country = r.country ∧ t.city = r.city ∧ t.images = imagesLambda r.images
      ∧ t.location = get_lat_long svc r.country r.stadium := by
  obtain ⟨cap, _, hv⟩ := Option.map_eq_some'.mp h
  rw [← hv]
  exact ⟨rfl, rfl, rfl, rfl⟩

/-- Claim C1 (amended): in the duplicate-resolution pass, a record whose
location equals an earlier record's location is re-geocoded with the
(country, city) query and its location is overwritten with the re-geocode
result whenever that result is non-null (a null result leaves the previous
location in place — see the counterexample), every other field kept; a
record that is not such a duplicate — in particular every first-seen
original — passes through entirely unchanged. -/
theorem transform_duplicate_overwrite {α : Type} [DecidableEq α]
    (svc : List Char → Option (GeoLoc α)) (rs : List (TRow α)) (i : Nat) (r : TRow α)
    (hr : rs[i]? = some r) :
    (∀ v, r.location ∈ (rs.take i).map (fun t => t.location) →
       get_lat_long svc r.country r.city = some v →
       (resolveDups svc rs)[i]? = some { r with location := some v })
    ∧ (r.location ∉ (rs.take i).map (fun t => t.location) →
       (resolveDups svc rs)[i]? = some r) := by
  constructor
  · intro v hdup hv
    rw [resolveDups_getElem, hr, Option.map_some', if_pos hdup, updateLoc_of_some svc r v hv]
  · intro hnd
    rw [resolveDups_getElem, hr, Option.map_some', if_neg hnd]

/-- First staged row of the duplicate-pass fixtures. -/
def tRow0 : TRow Int :=
  { rank := 1, stadium := "A".data, capacity := 1, region := "R".data, country := "X".data,
    city := "c1".data, images := some NO_IMAGE, home_team := "H".data, location := some (1, 1) }

/-- Second staged row, sharing its location with `tRow0`. -/
def tRow1 : TRow Int :=
  { rank := 2, stadium := "B".data, capacity := 2, region := "R".data, country := "X".data,
    city := "c2".data, images := some NO_IMAGE, home_team := "H".data, location := some (1, 1) }

/-- Geocoding double whose (country, city) re-query for `tRow1` resolves. -/
def svcHit : List Char → Option (GeoLoc Int) :=
  fun q => if q = "c2, X".data then some ⟨2, 3⟩ else none

/-- Witness for the amended C1: the duplicate row is overwritten with the
non-null re-geocode result. -/
theorem transform_duplicate_overwrite_witness :
    (resolveDups svcHit [tRow0, tRow1])[1]?
      = some { tRow1 with location := some ((2 : Int), (3 : Int)) } :=
  (transform_duplicate_overwrite svcHit [tRow0, tRow1] 1 tRow1 rfl).1 ((2 : Int), (3 : Int))
    (by decide) (by decide)

/-- First extract-stage record of the duplicate-pass counterexample. -/
def eRowA : ERow :=
  { rank := 1, stadium := "A".data, capacity := "1".data, region := "R".data,
    country := "X".data, city := "c1".data, images := some "NO_IMAGE".data,
    home_team := "H".data }

/-- Second extract-stage record of the duplicate-pass counterexample. -/
def eRowB : ERow :=
  { rank := 2, stadium := "B".data, capacity := "2".data, region := "R".data,
    country := "X".data, city := "c2".data, images := some "u".data,
    home_team := "H".data }

/-- Geocoding double: both (stadium, country) queries resolve to the same
point; the (country, city) re-query for the duplicate does not resolve. -/
def svcCollide : List Char → Option (GeoLoc Int) :=
  fun q => if q = "A, X".data ∨ q = "B, X".data then some ⟨1, 1⟩ else none

/-- Claim C1 counterexample: with both records geocoded to the same point
and the duplicate's (country, city) re-geocode returning null, the
duplicate's post-transform location is still `some (1, 1)` — not the null
re-geocode result the claim says its location is overwritten with (the
`DataFrame.update` merge skips missing values). -/
theorem transform_duplicate_overwrite_counterexample :
    (transform_wikipedia_data svcCollide [eRowA, eRowB]).map (List.map (fun t => t.location))
      = some [some (1, 1), some (1, 1)]
    ∧ get_lat_long svcCollide "X".data "c2".data = none
    ∧ some ((1 : Int), (1 : Int)) ≠ (none : Option (Int × Int)) := by
  decide

/-- Claim C10: in the duplicate-resolution pass, when the (country, city)
re-geocode of a duplicate record returns null, the record is retained
entirely unchanged — in particular its previous location value — because
the `DataFrame.update` merge skips missing values. -/
theorem transform_duplicate_null_retains {α : Type} [DecidableEq α]
    (svc : List Char → Option (GeoLoc α)) (rs : List (TRow α)) (i : Nat) (r : TRow α)
    (hr : rs[i]? = some r)
    (hdup : r.location ∈ (rs.take i).map (fun t => t.location))
    (hmiss : get_lat_long svc r.country r.city = none) :
    (resolveDups svc rs)[i]? = some r := by
  rw [resolveDups_getElem, hr, Option.map_some', if_pos hdup, updateLoc_of_none svc r hmiss]

/-- Geocoding double that never resolves. -/
def svcMiss : List Char → Option (GeoLoc Int) := fun _ => none

/-- Witness for C10: the duplicate keeps its previous location when the
re-geocode misses. -/
theorem transform_duplicate_null_retains_witness :
    (resolveDups svcMiss [tRow0, tRow1])[1]? = some tRow1 :=
  transform_duplicate_null_retains svcMiss [tRow0, tRow1] 1 tRow1 rfl (by decide) (by decide)

/-- Claim C6: in the transform stage's image normalization, a record whose
`images` value is absent, the empty string, or the sentinel `"NO_IMAGE"`
has it replaced by the fixed placeholder URL, and a record with any other
non-empty `images` string keeps it unchanged; moreover inside
`transform_wikipedia_data` every output record's `images` value is exactly
`imagesLambda` of its input record's value. -/
theorem transform_image_normalization :
    (∀ x : Option (List Char), (x = none ∨ x = some [] ∨ x = some "NO_IMAGE".data) →
       imagesLambda x = some NO_IMAGE)
    ∧ (∀ s : List Char, s ≠ [] → s ≠ "NO_IMAGE".data → imagesLambda (some s) = some s)
    ∧ (∀ (α : Type) [DecidableEq α] (svc : List Char → Option (GeoLoc α)) (data : List ERow)
         (out : List (TRow α)) (i : Nat) (r : ERow),
         transform_wikipedia_data svc data = some out → data[i]? = some r →
         (out[i]?).map (fun t => t.images) = some (imagesLambda r.images)) := by
  refine ⟨?_, ?_, ?_⟩
  · intro x hx
    rcases hx with rfl | rfl | rfl <;> simp [imagesLambda]
  · intro s h1 h2
    simp [imagesLambda, h1, h2]
  · intro α _ svc data out i r hT hd
    unfold transform_wikipedia_data at hT
    cases hm : mapMRows (stagedRow svc) data with
    | none => rw [hm] at hT; cases hT
    | some mid =>
      rw [hm] at hT
      simp only [Option.map_some', Option.some.injEq] at hT
      subst hT
      obtain ⟨hlen, hget⟩ := mapMRows_getElem (stagedRow svc) data mid hm
      have hmid : mid[i]? = stagedRow svc r := by rw [hget i, hd]; rfl
      have hi : i < data.length := by
        by_contra hx
        rw [List.getElem?_eq_none (by omega)] at hd
        cases hd
      have hlt : i < mid.length := by omega
      obtain ⟨t, ht⟩ : ∃ t, mid[i]? = some t := ⟨mid[i], List.getElem?_eq_getElem hlt⟩
      have hst : stagedRow svc r = some t := by rw [← hmid, ht]
      obtain ⟨_, _, htim, _⟩ := stagedRow_fields svc r t hst
      rw [resolveDups_getElem, ht, Option.map_some']
      have hupd : (updateLoc svc t).images = t.images := by
        unfold updateLoc
        cases get_lat_long svc t.country t.city <;> rfl
      by_cases hc : t.location ∈ (mid.take i).map (fun x => x.location)
      · rw [if_pos hc]; simp [hupd, htim]
      · rw [if_neg hc]; simp [htim]

/-- Witness for C6: an absent image value maps to the placeholder URL. -/
theorem transform_image_normalization_witness : imagesLambda none = some NO_IMAGE :=
  transform_image_normalization.1 none (Or.inl rfl)

/-- Claim C9: `get_lat_long` returns the service's (latitude, longitude)
pair when the external service resolves the `"city, country"` query and
`None` when it does not; and a `None` result never fails the transform
batch — assuming a non-empty record set (an empty one never reaches the
geocoder) all of whose capacity strings parse, the transform stage
succeeds, and a record neither of whose geocode queries resolves comes out
of the stage with a null location. -/
theorem geocode_miss_handling {α : Type} [DecidableEq α]
    (svc : List Char → Option (GeoLoc α)) (country city : List Char) (data : List ERow)
    (hne : data ≠ [])
    (hcap : ∀ r ∈ data, (pyToInt r.capacity).isSome = true) :
    (∀ loc, svc (city ++ ", ".data ++ country) = some loc →
       get_lat_long svc country city = some (loc.latitude, loc.longitude))
    ∧ (svc (city ++ ", ".data ++ country) = none →
       get_lat_long svc country city = none)
    ∧ ∃ out, transform_wikipedia_data svc data = some out ∧ out.length = data.length
        ∧ ∀ (i : Nat) (r : ERow), data[i]? = some r →
            get_lat_long svc r.country r.stadium = none →
            get_lat_long svc r.country r.city = none →
            (out[i]?).map (fun t => t.location) = some none := by
  refine ⟨?_, ?_, ?_⟩
  · intro loc h
    unfold get_lat_long
    rw [h]
  · intro h
    unfold get_lat_long
    rw [h]
  · have hs : (mapMRows (stagedRow svc) data).isSome = true := by
      apply mapMRows_isSome
      intro r hr
      have hc := hcap r hr
      unfold stagedRow
      cases hp : pyToInt r.capacity with
      | none => rw [hp] at hc; simp at hc
      | some c => rfl
    obtain ⟨mid, hm⟩ := Option.isSome_iff_exists.mp hs
    obtain ⟨hlen, hget⟩ := mapMRows_getElem (stagedRow svc) data mid hm
    refine ⟨resolveDups svc mid, ?_, ?_, ?_⟩
    · unfold transform_wikipedia_data
      rw [hm]
      rfl
    · unfold resolveDups
      rw [resolveDupsAux_length]
      exact hlen
    · intro i r hd hmiss1 hmiss2
      have hmid : mid[i]? = stagedRow svc r := by rw [hget i, hd]; rfl
      have hcr := hcap r (List.getElem?_mem hd)
      obtain ⟨c, hc⟩ := Option.isSome_iff_exists.mp hcr
      obtain ⟨t, hst⟩ : ∃ t, stagedRow svc r = some t := by
        unfold stagedRow
        rw [hc]
        exact ⟨_, rfl⟩
      obtain ⟨hco, hci, _, hlo⟩ := stagedRow_fields svc r t hst
      have hmid2 : mid[i]? = some t := by rw [hmid, hst]
      rw [resolveDups_getElem, hmid2, Option.map_some']
      have hup : updateLoc svc t = t :=
        updateLoc_of_none svc t (by rw [hco, hci]; exact hmiss2)
      have hloc : t.location = none := by rw [hlo]; exact hmiss1
      by_cases hcnd : t.location ∈ (mid.take i).map (fun x => x.location)
      · rw [if_pos hcnd, hup]
        simp [hloc]
      · rw [if_neg hcnd]
        simp [hloc]

/-- One-record fixture for the geocode-miss witness. -/
def eRowC : ERow :=
  { rank := 1, stadium := "A".data, capacity := "5".data, region := "R".data,
    country := "X".data, city := "c1".data, images := some "NO_IMAGE".data,
    home_team := "H".data }

/-- Witness for C9 with a service that never resolves. -/
theorem geocode_miss_handling_witness :
    ∃ out, transform_wikipedia_data svcMiss [eRowC] = some out
      ∧ out.length = [eRowC].length
      ∧ ∀ (i : Nat) (r : ERow), [eRowC][i]? = some r →
          get_lat_long svcMiss r.country r.stadium = none →
          get_lat_long svcMiss r.country r.city = none →
          (out[i]?).map (fun t => t.location) = some none :=
  (geocode_miss_handling svcMiss "X".data "c1".data [eRowC] (by decide) (by decide)).2.2

/-- Claim C7: capacity parsing is clean-then-strip-separators-then-coerce:
through the actual extract and transform stages a capacity cell `"90,000"`
yields integer capacity `90000` and `"1.234"` yields `1234` (the period is
stripped like a thousands separator, not interpreted as a decimal point),
and the composed cell-level rule — `int` of the comma- and period-stripped
`clean_text` output — gives the same values. -/
theorem capacity_parsing_examples :
    ((extract_wikipedia_data [[], rowA]).1.bind
        (fun d => transform_wikipedia_data svcMiss d)).map (List.map (fun t => t.capacity))
      = some [(90000 : Int)]
    ∧ ((extract_wikipedia_data [[], rowB]).1.bind
        (fun d => transform_wikipedia_data svcMiss d)).map (List.map (fun t => t.capacity))
      = some [(1234 : Int)]
    ∧ pyToInt (replaceAll ".".data [] (replaceAll ",".data [] (clean_text "90,000".data)))
      = some 90000
    ∧ pyToInt (replaceAll ".".data [] (replaceAll ",".data [] (clean_text "1.234".data)))
      = some 1234 := by
  decide
